import Mathlib

/-!
# Verification of the pyqtchart chart-engine specification

Shallow embedding of the chart engine of this repository:

* `BarChart.py` — the chart surface: `scale_from_mid`, `plot_area`,
  `_prepare_painting`, `_prepare_drawing_cache`, `_coordinate_transform`,
  and the paint orchestration (`paintEvent`, `_paint_axis`,
  `_paint_drawers`, `_paint_box_edge`).
* `chart/advanced_chart.py` — the crosshair axes: `CrossHairAxis`
  (`_set_drawer_value`, `_sync_all_linked`, `link_to`) and the bar-snapping
  variant `CrossHairBarAxisX`.

Python floats are embedded as exact rationals, Python ints as `Int`.
Qt's `QTransform` only ever receives affine contents here (translations,
scales, and a rotation by exactly 180 degrees about the X axis, whose sine
is exactly zero), so it is embedded as a general 2x2 affine map `Affine2`
with Qt's row-vector composition order: `a.mul b` applies `a` first.
-/

namespace PyChart

/-- Python truthiness of an `int`: nonzero is true. `BarChart.py` stores the
raw integer `end - begin` into the `has_showing_data` attribute and all
readers test it with `if config.has_showing_data:`. -/
def pythonTruthy (z : ℤ) : Bool := z != 0

/-- Python `int(q)` on a number: truncation toward zero (the floor for
nonnegative arguments, minus the floor of the negation otherwise). -/
def pyInt (q : ℚ) : ℤ := if 0 ≤ q then ⌊q⌋ else -⌊-q⌋

/-- On nonnegative numbers Python truncation agrees with the floor. -/
theorem pyInt_of_nonneg (q : ℚ) (h : 0 ≤ q) : pyInt q = ⌊q⌋ := if_pos h

/-- On negative numbers Python truncation agrees with the ceiling. -/
theorem pyInt_of_neg (q : ℚ) (h : q < 0) : pyInt q = ⌈q⌉ := by
  rw [pyInt, if_neg (not_le.mpr h), Int.floor_neg, neg_neg]

/-! ## Rectangles and the widget geometry -/

/-- QRectF restricted to what the code uses: origin `(x, y)` and size
`(w, h)`. `left = x`, `top = y`. -/
structure Rect where
  x : ℚ
  y : ℚ
  w : ℚ
  h : ℚ
deriving DecidableEq

/-- QRectF.adjusted(dx1, dy1, dx2, dy2): moves the two defining corners. -/
def Rect.adjusted (r : Rect) (dx1 dy1 dx2 dy2 : ℚ) : Rect :=
  ⟨r.x + dx1, r.y + dy1, r.w + dx2 - dx1, r.h + dy2 - dy1⟩

/-- The widget state that the drawing-cache computation reads: the widget
rectangle `self.rect()` is `(0, 0, width, height)` and `self.paddings`
is `(left, top, right, bottom)`. -/
structure Widget where
  width : ℚ
  height : ℚ
  padLeft : ℚ
  padTop : ℚ
  padRight : ℚ
  padBottom : ℚ
deriving DecidableEq

/-- BarChartWidget.plot_area: the widget rect adjusted inward by the
paddings (the `config` parameter of the Python method is unused). -/
def plot_area (wd : Widget) : Rect :=
  (Rect.mk 0 0 wd.width wd.height).adjusted wd.padLeft wd.padTop
    (-wd.padRight) (-wd.padBottom)

/-! ## The draw config -/

/-- DrawConfig as used by `BarChart.py`: the persisted x range (`begin`,
`end`, Python ints, renamed with a trailing underscore because `end` is a
Lean keyword), the y range, and the `has_showing_data` attribute.
The attribute is declared as a `bool` but `_prepare_painting` assigns the
raw integer `end - begin` to it, so it is embedded as an integer and read
through `pythonTruthy`. -/
structure DrawConfig where
  begin_ : ℤ
  end_ : ℤ
  y_low : ℚ
  y_high : ℚ
  has_showing_data : ℤ
deriving DecidableEq

/-- BarChart.scale_from_mid: scales the range about its midpoint. -/
def scale_from_mid (low high ratio_ : ℚ) : ℚ × ℚ :=
  let mid := (low + high) / 2
  let scaled_range_2 := (high - low) / 2 * ratio_
  (mid - scaled_range_2, mid + scaled_range_2)

/-- BarChartWidget._prepare_painting, y-range part. Each registered drawer
is represented by its reply for this frame: `none` when `has_data()` is
false, `some (y_low, y_high)` for the range its `prepare_draw` reports.
Python's `min(..., key=...)` / `max(..., key=...)` over the nonempty reply
list are left folds with `min` / `max` over the projected keys. -/
def prepare_painting (y_scale : ℚ) (drawers : List (Option (ℚ × ℚ)))
    (c : DrawConfig) : DrawConfig :=
  let hsd := c.end_ - c.begin_
  let c1 := { c with has_showing_data := hsd }
  if hsd ≠ 0 ∧ drawers ≠ [] then
    match drawers.filterMap id with
    | [] =>
      let s := scale_from_mid 0 1 y_scale
      { c1 with y_low := s.1, y_high := s.2 }
    | p :: rest =>
      let lo := rest.foldl (fun m q => min m q.1) p.1
      let hi := rest.foldl (fun m q => max m q.2) p.2
      let s := scale_from_mid lo hi y_scale
      { c1 with y_low := s.1, y_high := s.2 }
  else c1

/-! ## Affine transforms (QTransform, affine fragment) -/

/-- QTransform restricted to affine contents. Maps row vectors:
`(x, y) maps to (m11 x + m21 y + dx, m12 x + m22 y + dy)`. -/
structure Affine2 where
  m11 : ℚ
  m12 : ℚ
  m21 : ℚ
  m22 : ℚ
  dx : ℚ
  dy : ℚ
deriving DecidableEq

/-- Apply the transform to a point, Qt row-vector convention. -/
def Affine2.map (t : Affine2) (p : ℚ × ℚ) : ℚ × ℚ :=
  (t.m11 * p.1 + t.m21 * p.2 + t.dx, t.m12 * p.1 + t.m22 * p.2 + t.dy)

/-- QTransform multiplication: `(a.mul b).map p = b.map (a.map p)`,
so `t *= x` post-composes `x` after `t`. -/
def Affine2.mul (a b : Affine2) : Affine2 :=
  ⟨a.m11 * b.m11 + a.m12 * b.m21,
   a.m11 * b.m12 + a.m12 * b.m22,
   a.m21 * b.m11 + a.m22 * b.m21,
   a.m21 * b.m12 + a.m22 * b.m22,
   a.dx * b.m11 + a.dy * b.m21 + b.dx,
   a.dx * b.m12 + a.dy * b.m22 + b.dy⟩

/-- QTransform.fromTranslate. -/
def Affine2.fromTranslate (tx ty : ℚ) : Affine2 := ⟨1, 0, 0, 1, tx, ty⟩

/-- QTransform.fromScale. -/
def Affine2.fromScale (sx sy : ℚ) : Affine2 := ⟨sx, 0, 0, sy, 0, 0⟩

/-- The identity transform (a default-constructed QTransform). -/
def Affine2.idT : Affine2 := ⟨1, 0, 0, 1, 0, 0⟩

/-- QTransform().rotate(180, Qt.XAxis): a rotation by exactly 180 degrees
about the X axis projects to negating the y coordinate (sin 180 = 0). -/
def Affine2.rotX180 : Affine2 := ⟨1, 0, 0, -1, 0, 0⟩

/-- Determinant of the linear part. -/
def Affine2.det (t : Affine2) : ℚ := t.m11 * t.m22 - t.m12 * t.m21

/-- QTransform.inverted(): the inverse and a success flag; on a singular
transform Qt returns a default-constructed (identity) transform and
`false`. -/
def Affine2.inverted (t : Affine2) : Affine2 × Bool :=
  if t.det = 0 then (Affine2.idT, false)
  else
    (⟨t.m22 / t.det, -t.m12 / t.det, -t.m21 / t.det, t.m11 / t.det,
      (t.m21 * t.dy - t.m22 * t.dx) / t.det,
      (t.m12 * t.dx - t.m11 * t.dy) / t.det⟩, true)

/-- A nonsingular transform's `inverted` really is a left inverse. -/
theorem Affine2.map_inverted_map (t : Affine2) (h : t.det ≠ 0) (p : ℚ × ℚ) :
    (t.inverted.1).map (t.map p) = p := by
  obtain ⟨a, b, c, d, e, f⟩ := t
  simp only [Affine2.det] at h
  simp only [Affine2.inverted, Affine2.det, Affine2.map, if_neg h]
  obtain ⟨x, y⟩ := p
  field_simp
  constructor <;> ring

/-! ## The drawing cache -/

/-- DrawingCache fields assigned by `_prepare_drawing_cache`
(`p2d_w`, `p2d_h` are the plot-to-drawer scale factors). -/
structure DrawingCache where
  drawer_transform : Affine2
  ui_transform : Affine2
  drawer_area : Rect
  plot_area : Rect
  p2d_w : ℚ
  p2d_h : ℚ
deriving DecidableEq

/-- The drawer-space rectangle built by `_prepare_drawing_cache`: origin
`(begin, y_low)`, width and height each floored at 1. -/
def drawer_area (c : DrawConfig) : Rect :=
  ⟨(c.begin_ : ℚ), c.y_low,
   max ((c.end_ : ℚ) - (c.begin_ : ℚ)) 1,
   max (c.y_high - c.y_low) 1⟩

/-- BarChartWidget._coordinate_transform: translate the input rectangle's
origin to zero, scale to the output size, translate to the output origin. -/
def coordinate_transform (input output : Rect) : Affine2 :=
  let rx := output.w / input.w
  let ry := output.h / input.h
  ((Affine2.fromTranslate (-input.x) (-input.y)).mul
    (Affine2.fromScale rx ry)).mul
    (Affine2.fromTranslate output.x output.y)

/-- BarChartWidget._prepare_drawing_cache, computation part: compose the
rectangle-to-rectangle map with the vertical flip of the plot area, and
record the transform, its inverse, the two rectangles and the scale
factors. The `p2d_w` / `p2d_h` divisions are the last statements the
Python method executes and they raise ZeroDivisionError when the plot
area has zero width or height (the transform and its inversion fallback
have already been computed by then); that exception is modelled by
`prepare_drawing_cache?`, which callers on the paint path go through,
while this total function gives the fields of the cache whenever the
method returns (and the pre-crash transform fields in any case). -/
def prepare_drawing_cache (wd : Widget) (c : DrawConfig) : DrawingCache :=
  let da := drawer_area c
  let pa := plot_area wd
  let t0 := coordinate_transform da pa
  let t1 := t0.mul (Affine2.fromTranslate 0 (-pa.y))
  let t2 := t1.mul (Affine2.fromTranslate 0 (-pa.h))
  let t3 := t2.mul Affine2.rotX180
  let t4 := t3.mul (Affine2.fromTranslate 0 pa.y)
  { drawer_transform := t4
    ui_transform := t4.inverted.1
    drawer_area := da
    plot_area := pa
    p2d_w := da.w / pa.w
    p2d_h := da.h / pa.h }

/-- BarChartWidget._prepare_drawing_cache as executed by a paint pass:
`none` models the ZeroDivisionError raised by the `p2d_w` / `p2d_h`
assignments when the plot area has zero width or height, which
propagates out of `_prepare_painting` and aborts the paint pass before
config persistence or any drawing. -/
def prepare_drawing_cache? (wd : Widget) (c : DrawConfig) :
    Option DrawingCache :=
  if (plot_area wd).w = 0 ∨ (plot_area wd).h = 0 then none
  else some (prepare_drawing_cache wd c)

/-! ## The paint pass as a trace of calls -/

/-- The visibility flags of one registered axis. -/
structure AxisFlags where
  axis_visible : Bool
  grid_visible : Bool
  tick_visible : Bool
deriving DecidableEq

/-- BarChartWidget._should_paint_axis. -/
def should_paint_axis (a : AxisFlags) : Bool :=
  a.axis_visible && (a.tick_visible || a.grid_visible)

/-- One observable call a paint pass makes on its collaborators (painter,
axes, drawers), indexed by the axis or drawer position in the widget's
lists. Painter state changes (pens, brushes, world transforms) are not
recorded. -/
inductive PaintEvent where
  | clearBackground : PaintEvent
  | prepareAxis (k : Nat) : PaintEvent
  | prepareGrids (k : Nat) : PaintEvent
  | gridDraw (k : Nat) : PaintEvent
  | prepareTicks (k : Nat) : PaintEvent
  | tickDraw (k : Nat) : PaintEvent
  | drawerDraw (k : Nat) : PaintEvent
  | borderRect (r : Rect) : PaintEvent
deriving DecidableEq

/-- Whether an event is one of the grid, tick/label, or drawer draw calls. -/
def PaintEvent.isDataDraw : PaintEvent → Bool
  | .gridDraw _ => true
  | .tickDraw _ => true
  | .drawerDraw _ => true
  | _ => false

/-- BarChartWidget._paint_axis: every eligible axis is prepared, then, only
if there is showing data, grids are drawn for the grid-visible ones and
ticks for the tick-visible ones. -/
def paint_axis_events (c : DrawConfig) (axes : List AxisFlags) :
    List PaintEvent :=
  let ax := (axes.enum).filter (fun p => should_paint_axis p.2)
  ax.map (fun p => PaintEvent.prepareAxis p.1)
    ++ (if pythonTruthy c.has_showing_data then
          (ax.filter (fun p => p.2.grid_visible)).flatMap
            (fun p => [PaintEvent.prepareGrids p.1, PaintEvent.gridDraw p.1])
        else [])
    ++ (if pythonTruthy c.has_showing_data then
          (ax.filter (fun p => p.2.tick_visible)).flatMap
            (fun p => [PaintEvent.prepareTicks p.1, PaintEvent.tickDraw p.1])
        else [])

/-- BarChartWidget._paint_drawers: only if there is showing data, each
drawer with data is drawn. -/
def paint_drawers_events (c : DrawConfig)
    (drawers : List (Option (ℚ × ℚ))) : List PaintEvent :=
  if pythonTruthy c.has_showing_data then
    ((drawers.enum).filter (fun p => p.2.isSome)).map
      (fun p => PaintEvent.drawerDraw p.1)
  else []

/-- BarChartWidget._paint_box_edge: the plot-area border rectangle, drawn
whenever the edge is visible. -/
def paint_box_edge_events (edge_visible : Bool) (cache : DrawingCache) :
    List PaintEvent :=
  if edge_visible then [PaintEvent.borderRect cache.plot_area] else []

/-- BarChartWidget.paintEvent: copy the persisted config, run
`_prepare_painting` (including the drawing cache), clear the background,
paint axes, drawers, and the box edge, and persist the new config.
Returns the persisted config together with the trace of observable
calls, or `none` when `_prepare_painting` raises ZeroDivisionError on a
degenerate plot area — the exception fires before the QPainter is even
created, so nothing is drawn and no config is persisted. -/
def paintEventRun (y_scale : ℚ) (edge_visible : Bool) (wd : Widget)
    (axes : List AxisFlags) (drawers : List (Option (ℚ × ℚ)))
    (c0 : DrawConfig) : Option (DrawConfig × List PaintEvent) :=
  let c := prepare_painting y_scale drawers c0
  match prepare_drawing_cache? wd c with
  | none => none
  | some cache =>
    some (c, PaintEvent.clearBackground ::
          (paint_axis_events c axes
            ++ paint_drawers_events c drawers
            ++ paint_box_edge_events edge_visible cache))

/-! ## Crosshair axes and the linked-value cascade

A finite arena of crosshair axes from `chart/advanced_chart.py`: axis `k`
has an orientation, a flag telling whether it is a `CrossHairBarAxisX`
(which snaps incoming values), and the list `_links` of axes it pushes its
value into. The cascade `_set_drawer_value` / `_sync_all_linked` is
embedded with explicit fuel (the Python recursion has no built-in bound);
a result of `none` means the fuel ran out. The returned log records, in
order, every `(axis, value)` pair for which the axis actually changed its
stored value and emitted its `updated` signal. -/

/-- The change log of one cascade. -/
abbrev Log := List (Nat × ℚ)

/-- The static part of a crosshair-axis arena: orientations (true is
HORIZONTAL), which axes snap like `CrossHairBarAxisX`, and the `_links`
adjacency lists (axis `k` pushes into every member of `links[k]`). -/
structure HairSys where
  orientationH : List Bool
  isBar : List Bool
  links : List (List Nat)

/-- CrossHairBarAxisX's snap: `int(value) + 0.5`. -/
def barSnap (q : ℚ) : ℚ := (pyInt q : ℚ) + 1 / 2

/-- The loop of `_sync_all_linked`: push the axis's current value into each
linked axis in turn, threading the value state; `f` is the recursive
`_set_drawer_value` at the remaining fuel. The pushed value is re-read from
`i`'s current entry at every iteration, exactly as the Python loop re-reads
`self._drawer_value`. -/
def runLinks (f : List ℚ → Nat → ℚ → Option (List ℚ × Log)) :
    List ℚ → Nat → List Nat → Option (List ℚ × Log)
  | vals, _, [] => some (vals, [])
  | vals, i, j :: js =>
    match f vals j (vals.getD i 0) with
    | none => none
    | some r =>
      match runLinks f r.1 i js with
      | none => none
      | some r2 => some (r2.1, r.2 ++ r2.2)

/-- CrossHairAxis._set_drawer_value (with the `CrossHairBarAxisX` override
applied first when the target axis is a bar axis): if the incoming value
differs from the stored one, store it, emit `updated` (logged), and sync
all linked axes. -/
def runSet (sys : HairSys) : Nat → List ℚ → Nat → ℚ → Option (List ℚ × Log)
  | 0 => fun _ _ _ => none
  | fuel + 1 => fun vals i v =>
    let v' := if sys.isBar.getD i false then barSnap v else v
    if v' = vals.getD i 0 then some (vals, [])
    else
      match runLinks (runSet sys fuel) (vals.set i v') i
          (sys.links.getD i []) with
      | none => none
      | some r => some (r.1, (i, v') :: r.2)

/-- Unfolding equation of `runSet` at positive fuel, restricted to full
applications so that rewriting with it leaves the recursive partial
application in the sync loop untouched. -/
theorem runSet_succ (sys : HairSys) (fuel : Nat) (vals : List ℚ) (i : Nat)
    (v : ℚ) :
    runSet sys (fuel + 1) vals i v
      = (let v' := if sys.isBar.getD i false then barSnap v else v
         if v' = vals.getD i 0 then some (vals, [])
         else
           match runLinks (runSet sys fuel) (vals.set i v') i
               (sys.links.getD i []) with
           | none => none
           | some r => some (r.1, (i, v') :: r.2)) := rfl

/-- CrossHairAxis.link_to: assert equal orientations (an assertion failure
is `none`), then append `self` to `target._links` unless already present.
`link_to s t` is `s.link_to(t)`, so it is `t` that gains the link. -/
def link_to (sys : HairSys) (s t : Nat) : Option HairSys :=
  if sys.orientationH.getD t true = sys.orientationH.getD s true then
    let l := sys.links.getD t []
    some { sys with links := sys.links.set t (if s ∈ l then l else l ++ [s]) }
  else none

/-! ## Helper lemmas about the y-range computation -/

/-- A left fold with `min` over the first components returns one of the
candidates and is a lower bound for the seed and all of them. -/
theorem foldl_min_spec (rest : List (ℚ × ℚ)) :
    ∀ a : ℚ, (rest.foldl (fun m q => min m q.1) a = a
        ∨ ∃ q ∈ rest, rest.foldl (fun m q => min m q.1) a = q.1)
      ∧ rest.foldl (fun m q => min m q.1) a ≤ a
      ∧ ∀ q ∈ rest, rest.foldl (fun m q => min m q.1) a ≤ q.1 := by
  induction rest with
  | nil =>
    intro a
    exact ⟨Or.inl rfl, le_refl a, fun q hq => absurd hq (List.not_mem_nil q)⟩
  | cons p rest ih =>
    intro a
    simp only [List.foldl_cons]
    obtain ⟨h1, h2, h3⟩ := ih (min a p.1)
    refine ⟨?_, h2.trans (min_le_left _ _), ?_⟩
    · rcases h1 with h | ⟨q, hq, h⟩
      · rcases min_choice a p.1 with hm | hm
        · exact Or.inl (h.trans hm)
        · exact Or.inr ⟨p, List.mem_cons_self _ _, h.trans hm⟩
      · exact Or.inr ⟨q, List.mem_cons_of_mem _ hq, h⟩
    · intro q hq
      rcases List.mem_cons.mp hq with rfl | hq
      · exact h2.trans (min_le_right _ _)
      · exact h3 q hq

/-- A left fold with `max` over the second components returns one of the
candidates and is an upper bound for the seed and all of them. -/
theorem foldl_max_spec (rest : List (ℚ × ℚ)) :
    ∀ a : ℚ, (rest.foldl (fun m q => max m q.2) a = a
        ∨ ∃ q ∈ rest, rest.foldl (fun m q => max m q.2) a = q.2)
      ∧ a ≤ rest.foldl (fun m q => max m q.2) a
      ∧ ∀ q ∈ rest, q.2 ≤ rest.foldl (fun m q => max m q.2) a := by
  induction rest with
  | nil =>
    intro a
    exact ⟨Or.inl rfl, le_refl a, fun q hq => absurd hq (List.not_mem_nil q)⟩
  | cons p rest ih =>
    intro a
    simp only [List.foldl_cons]
    obtain ⟨h1, h2, h3⟩ := ih (max a p.2)
    refine ⟨?_, (le_max_left _ _).trans h2, ?_⟩
    · rcases h1 with h | ⟨q, hq, h⟩
      · rcases max_choice a p.2 with hm | hm
        · exact Or.inl (h.trans hm)
        · exact Or.inr ⟨p, List.mem_cons_self _ _, h.trans hm⟩
      · exact Or.inr ⟨q, List.mem_cons_of_mem _ hq, h⟩
    · intro q hq
      rcases List.mem_cons.mp hq with rfl | hq
      · exact (le_max_right _ _).trans h2
      · exact h3 q hq

/-- `_prepare_painting` always stores the raw integer `end - begin` into
`has_showing_data`, in every branch. -/
theorem prepare_painting_hsd (y_scale : ℚ) (drawers : List (Option (ℚ × ℚ)))
    (c : DrawConfig) :
    (prepare_painting y_scale drawers c).has_showing_data
      = c.end_ - c.begin_ := by
  simp only [prepare_painting]
  split <;> (try split) <;> rfl

/-! ## Concrete fixtures used by witnesses and counterexamples -/

/-- A persisted config with the default x range 0..10 and y range 0..1. -/
def cfg0 : DrawConfig := DrawConfig.mk 0 10 0 1 0

/-- A persisted config whose x range is reversed: begin 1, end 0. -/
def cfgRev : DrawConfig := DrawConfig.mk 1 0 0 1 0

/-- A persisted config with showing data and y range 5..7. -/
def cfg57 : DrawConfig := DrawConfig.mk 0 1 5 7 0

/-- The three drawer replies of the worked example in the spec. -/
def drawers3 : List (Option (ℚ × ℚ)) := [some (0, 5), some (-2, 3), some (1, 10)]

/-! ## C4 -/

/-- C4: for all low, high, ratio, `scale_from_mid` returns the pair
(mid - half * ratio, mid + half * ratio) with mid = (low + high) / 2 and
half = (high - low) / 2, that is, a range with the same midpoint as
[low, high] and width (high - low) * ratio; in particular
`scale_from_mid 0 10 1.1 = (-0.5, 10.5)`. Confirmed. -/
theorem C4_scale_from_mid (low high k : ℚ) :
    scale_from_mid low high k
      = ((low + high) / 2 - (high - low) / 2 * k,
         (low + high) / 2 + (high - low) / 2 * k) ∧
    ((scale_from_mid low high k).1 + (scale_from_mid low high k).2) / 2
      = (low + high) / 2 ∧
    (scale_from_mid low high k).2 - (scale_from_mid low high k).1
      = (high - low) * k ∧
    scale_from_mid 0 10 (11 / 10) = (-(1 / 2), 21 / 2) := by
  refine ⟨rfl, ?_, ?_, by norm_num [scale_from_mid]⟩ <;>
    simp only [scale_from_mid] <;> ring

/-! ## C5 -/

/-- C5, counterexample: with begin = 1, end = 0 the persisted
`has_showing_data` is the integer -1, which is truthy, yet end > begin
fails, so the claimed equivalence with `end > begin` is false. -/
theorem C5_counterexample :
    ¬ (pythonTruthy (prepare_painting (11 / 10) [] cfgRev).has_showing_data
          = true
        ↔ cfgRev.end_ > cfgRev.begin_) := by
  norm_num [prepare_painting, pythonTruthy, cfgRev]

/-- C5, amended: after every paint pass the persisted config's
`has_showing_data` is truthy if and only if end and begin differ (the code
stores the integer end - begin and tests its truthiness, so a reversed
range with end < begin also counts as showing data). -/
theorem C5_amended (y_scale : ℚ) (drawers : List (Option (ℚ × ℚ)))
    (c : DrawConfig) :
    pythonTruthy (prepare_painting y_scale drawers c).has_showing_data = true
      ↔ c.end_ ≠ c.begin_ := by
  rw [prepare_painting_hsd, pythonTruthy, bne_iff_ne, ne_eq, sub_eq_zero]

/-! ## C2 -/

/-- C2, counterexample: a paint pass with showing data but an empty drawer
list leaves the persisted y range untouched (5..7 here) instead of scaling
the claimed default range 0..1, whose scaled endpoints would be -1/20 and
21/20. -/
theorem C2_counterexample :
    (prepare_painting (11 / 10) [] cfg57).y_low = 5 ∧
    (prepare_painting (11 / 10) [] cfg57).y_high = 7 ∧
    (scale_from_mid 0 1 (11 / 10)).1 = -(1 / 20) ∧
    (scale_from_mid 0 1 (11 / 10)).2 = 21 / 20 ∧
    ((5 : ℚ) ≠ -(1 / 20) ∧ (7 : ℚ) ≠ 21 / 20) := by
  norm_num [prepare_painting, scale_from_mid, cfg57]

/-- C2, amended: in a paint pass with showing data, if at least one
registered drawer reports data then the pre-scale y range is the global
minimum of the reported y_low values and the global maximum of the
reported y_high values, and the persisted values are that range scaled
about its midpoint by y_scale; if drawers are registered but none reports
data the default range 0..1 is scaled instead; if no drawer is registered
at all the persisted y range is left unchanged. -/
theorem C2_amended (y_scale : ℚ) (drawers : List (Option (ℚ × ℚ)))
    (c : DrawConfig) (h : c.end_ - c.begin_ ≠ 0) :
    (drawers = [] →
      (prepare_painting y_scale drawers c).y_low = c.y_low ∧
      (prepare_painting y_scale drawers c).y_high = c.y_high) ∧
    (drawers ≠ [] → drawers.filterMap id = [] →
      (prepare_painting y_scale drawers c).y_low
        = (scale_from_mid 0 1 y_scale).1 ∧
      (prepare_painting y_scale drawers c).y_high
        = (scale_from_mid 0 1 y_scale).2) ∧
    (∀ p rest, drawers.filterMap id = p :: rest →
      ∃ lo hi,
        lo ∈ (drawers.filterMap id).map Prod.fst ∧
        hi ∈ (drawers.filterMap id).map Prod.snd ∧
        (∀ q ∈ drawers.filterMap id, lo ≤ q.1 ∧ q.2 ≤ hi) ∧
        (prepare_painting y_scale drawers c).y_low
          = (scale_from_mid lo hi y_scale).1 ∧
        (prepare_painting y_scale drawers c).y_high
          = (scale_from_mid lo hi y_scale).2) := by
  refine ⟨?_, ?_, ?_⟩
  · rintro rfl
    simp [prepare_painting]
  · intro hd hpre
    constructor <;> simp [prepare_painting, hpre, h, hd]
  · intro p rest hpre
    have hd : drawers ≠ [] := by
      intro hnil
      rw [hnil] at hpre
      exact List.cons_ne_nil p rest hpre.symm
    refine ⟨rest.foldl (fun m q => min m q.1) p.1,
            rest.foldl (fun m q => max m q.2) p.2, ?_, ?_, ?_, ?_, ?_⟩
    · obtain ⟨h1, _, _⟩ := foldl_min_spec rest p.1
      rw [hpre]
      rcases h1 with hh | ⟨q, hq, hh⟩
      · rw [hh]
        exact List.mem_map_of_mem Prod.fst (List.mem_cons_self _ _)
      · rw [hh]
        exact List.mem_map_of_mem Prod.fst (List.mem_cons_of_mem _ hq)
    · obtain ⟨h1, _, _⟩ := foldl_max_spec rest p.2
      rw [hpre]
      rcases h1 with hh | ⟨q, hq, hh⟩
      · rw [hh]
        exact List.mem_map_of_mem Prod.snd (List.mem_cons_self _ _)
      · rw [hh]
        exact List.mem_map_of_mem Prod.snd (List.mem_cons_of_mem _ hq)
    · intro q hq
      rw [hpre] at hq
      obtain ⟨_, h2, h3⟩ := foldl_min_spec rest p.1
      obtain ⟨_, h5, h6⟩ := foldl_max_spec rest p.2
      rcases List.mem_cons.mp hq with rfl | hq
      · exact ⟨h2, h5⟩
      · exact ⟨h3 q hq, h6 q hq⟩
    · simp [prepare_painting, hpre, h, hd]
    · simp [prepare_painting, hpre, h, hd]

/-- C2, witness: the spec's worked example. Three drawers reporting the
ranges 0..5, -2..3 and 1..10 with y_scale 1.1 satisfy the hypotheses of
the amended theorem, and the persisted range is -2.6..10.6. -/
theorem C2_witness :
    (cfg0.end_ - cfg0.begin_ ≠ 0) ∧
    ((drawers3 = [] →
        (prepare_painting (11 / 10) drawers3 cfg0).y_low = cfg0.y_low ∧
        (prepare_painting (11 / 10) drawers3 cfg0).y_high = cfg0.y_high) ∧
      (drawers3 ≠ [] → drawers3.filterMap id = [] →
        (prepare_painting (11 / 10) drawers3 cfg0).y_low
          = (scale_from_mid 0 1 (11 / 10)).1 ∧
        (prepare_painting (11 / 10) drawers3 cfg0).y_high
          = (scale_from_mid 0 1 (11 / 10)).2) ∧
      (∀ p rest, drawers3.filterMap id = p :: rest →
        ∃ lo hi,
          lo ∈ (drawers3.filterMap id).map Prod.fst ∧
          hi ∈ (drawers3.filterMap id).map Prod.snd ∧
          (∀ q ∈ drawers3.filterMap id, lo ≤ q.1 ∧ q.2 ≤ hi) ∧
          (prepare_painting (11 / 10) drawers3 cfg0).y_low
            = (scale_from_mid lo hi (11 / 10)).1 ∧
          (prepare_painting (11 / 10) drawers3 cfg0).y_high
            = (scale_from_mid lo hi (11 / 10)).2)) ∧
    (prepare_painting (11 / 10) drawers3 cfg0).y_low = -(13 / 5) ∧
    (prepare_painting (11 / 10) drawers3 cfg0).y_high = 53 / 5 :=
  ⟨by norm_num [cfg0],
   C2_amended (11 / 10) drawers3 cfg0 (by norm_num [cfg0]),
   by
     norm_num [prepare_painting, scale_from_mid, cfg0, drawers3,
       List.filterMap, List.foldl, min_def, max_def]
     simp,
   by
     norm_num [prepare_painting, scale_from_mid, cfg0, drawers3,
       List.filterMap, List.foldl, min_def, max_def]
     simp⟩

/-! ## C8 -/

/-- An all-visible axis, used by the C8 theorems. -/
def axisAll : AxisFlags := AxisFlags.mk true true true

/-- A config with begin = end = 0, used by the C8 theorems. -/
def cfgEmpty : DrawConfig := DrawConfig.mk 0 0 0 1 0

/-- C8, counterexample: on a 40 x 40 widget with the default 20-pixel
paddings the plot area is 0 x 0, so a paint pass with begin = end = 0 and
a visible edge raises ZeroDivisionError inside `_prepare_painting`
(at the `p2d_w` division) before the painter is created: the pass aborts,
no border rectangle is ever issued and no config is persisted, refuting
the claim's unconditional border-draw conclusion. -/
theorem C8_counterexample :
    cfgEmpty.end_ = cfgEmpty.begin_ ∧
    paintEventRun (11 / 10) true (Widget.mk 40 40 20 20 20 20)
        [axisAll] [some ((0 : ℚ), (5 : ℚ))] cfgEmpty = none := by
  refine ⟨rfl, ?_⟩
  norm_num [paintEventRun, prepare_drawing_cache?, plot_area, Rect.adjusted]

/-- C8, amended: a paint pass with begin = end on a widget whose plot
area has nonzero width and height completes, produces a falsy
`has_showing_data`, performs no grid, tick/label or drawer draw calls,
and still issues the plot-border rectangle draw whenever the edge is
visible; with a degenerate plot area the pass instead raises
ZeroDivisionError before drawing anything. -/
theorem C8_empty_range_paint (y_scale : ℚ) (edge : Bool) (wd : Widget)
    (axes : List AxisFlags) (drawers : List (Option (ℚ × ℚ)))
    (c0 : DrawConfig) (h : c0.end_ = c0.begin_)
    (hPw : (plot_area wd).w ≠ 0) (hPh : (plot_area wd).h ≠ 0) :
    ∃ c evs, paintEventRun y_scale edge wd axes drawers c0 = some (c, evs) ∧
      pythonTruthy c.has_showing_data = false ∧
      (∀ e ∈ evs, e.isDataDraw = false) ∧
      (edge = true → PaintEvent.borderRect (plot_area wd) ∈ evs) := by
  have htr : pythonTruthy
      (prepare_painting y_scale drawers c0).has_showing_data = false := by
    rw [prepare_painting_hsd, h, sub_self]
    rfl
  have hnd : ¬ ((plot_area wd).w = 0 ∨ (plot_area wd).h = 0) :=
    not_or.mpr ⟨hPw, hPh⟩
  refine ⟨prepare_painting y_scale drawers c0,
    PaintEvent.clearBackground ::
      (paint_axis_events (prepare_painting y_scale drawers c0) axes
        ++ paint_drawers_events (prepare_painting y_scale drawers c0) drawers
        ++ paint_box_edge_events edge
            (prepare_drawing_cache wd (prepare_painting y_scale drawers c0))),
    ?_, htr, ?_, ?_⟩
  · simp only [paintEventRun, prepare_drawing_cache?, if_neg hnd]
  · intro e he
    simp only [List.mem_cons, List.mem_append,
      paint_axis_events, paint_drawers_events, paint_box_edge_events,
      htr, Bool.false_eq_true, if_false, List.append_nil, List.mem_map,
      List.mem_filter] at he
    rcases he with rfl | ⟨⟨p, _, rfl⟩ | hbord⟩
    · rfl
    · rfl
    · rcases edge with _ | _
      · simp at hbord
      · simp only [if_true, List.mem_singleton] at hbord
        rw [hbord]
        rfl
  · intro hedge
    simp only [hedge, paint_box_edge_events, if_true,
      prepare_drawing_cache, List.mem_cons, List.mem_append,
      List.mem_singleton]
    tauto

/-- C8, witness: concrete paint pass with begin = end = 0 on a 100 x 100
widget (60 x 60 plot area), one axis with everything visible, one drawer
with data, and a visible edge. -/
theorem C8_witness :
    cfgEmpty.end_ = cfgEmpty.begin_ ∧
    (plot_area (Widget.mk 100 100 20 20 20 20)).w ≠ 0 ∧
    (plot_area (Widget.mk 100 100 20 20 20 20)).h ≠ 0 ∧
    (∃ c evs,
      paintEventRun (11 / 10) true (Widget.mk 100 100 20 20 20 20)
          [axisAll] [some ((0 : ℚ), (5 : ℚ))] cfgEmpty = some (c, evs) ∧
        pythonTruthy c.has_showing_data = false ∧
        (∀ e ∈ evs, e.isDataDraw = false) ∧
        (true = true →
          PaintEvent.borderRect (plot_area (Widget.mk 100 100 20 20 20 20))
            ∈ evs)) :=
  ⟨rfl, by norm_num [plot_area, Rect.adjusted],
   by norm_num [plot_area, Rect.adjusted],
   C8_empty_range_paint (11 / 10) true (Widget.mk 100 100 20 20 20 20)
     [axisAll] [some ((0 : ℚ), (5 : ℚ))] cfgEmpty rfl
     (by norm_num [plot_area, Rect.adjusted])
     (by norm_num [plot_area, Rect.adjusted])⟩

/-! ## Helper lemmas about the composed transform -/

/-- The drawer rectangle has width at least 1 by the floor-at-1 guard. -/
theorem drawer_area_w_pos (c : DrawConfig) : 0 < (drawer_area c).w :=
  lt_of_lt_of_le one_pos (le_max_right _ _)

/-- The drawer rectangle has height at least 1 by the floor-at-1 guard. -/
theorem drawer_area_h_pos (c : DrawConfig) : 0 < (drawer_area c).h :=
  lt_of_lt_of_le one_pos (le_max_right _ _)

/-- The determinant of the composed drawer transform is the negated
product of the two scale ratios. -/
theorem drawer_transform_det (wd : Widget) (c : DrawConfig) :
    (prepare_drawing_cache wd c).drawer_transform.det
      = -(((plot_area wd).w * (plot_area wd).h)
          / ((drawer_area c).w * (drawer_area c).h)) := by
  simp only [prepare_drawing_cache, coordinate_transform, Affine2.mul,
    Affine2.fromTranslate, Affine2.fromScale, Affine2.rotX180, Affine2.det]
  ring

/-- With a nondegenerate plot area the composed transform is nonsingular. -/
theorem drawer_transform_det_ne (wd : Widget) (c : DrawConfig)
    (hPw : (plot_area wd).w ≠ 0) (hPh : (plot_area wd).h ≠ 0) :
    (prepare_drawing_cache wd c).drawer_transform.det ≠ 0 := by
  rw [drawer_transform_det]
  exact neg_ne_zero.mpr (div_ne_zero (mul_ne_zero hPw hPh)
    (mul_ne_zero (ne_of_gt (drawer_area_w_pos c))
      (ne_of_gt (drawer_area_h_pos c))))

/-! ## C1 -/

/-- C1: for every drawer-space rectangle (width and height floored at 1)
and every plot area with positive width and height, the composed
`drawer_transform` maps the four drawer-area corners onto the four
plot-area corners with the y axis inverted (the minimum-y drawer corner
goes to the maximum-y screen corner and conversely, x order preserved),
and `ui_transform` is its exact inverse, so the roundtrip is the identity
on every point. Confirmed. -/
theorem C1_transform_corners_and_inverse (wd : Widget) (c : DrawConfig)
    (hPw : 0 < (plot_area wd).w) (hPh : 0 < (plot_area wd).h) :
    ((prepare_drawing_cache wd c).drawer_transform.map
        ((drawer_area c).x, (drawer_area c).y)
      = ((plot_area wd).x, (plot_area wd).y + (plot_area wd).h)) ∧
    ((prepare_drawing_cache wd c).drawer_transform.map
        ((drawer_area c).x + (drawer_area c).w, (drawer_area c).y)
      = ((plot_area wd).x + (plot_area wd).w,
         (plot_area wd).y + (plot_area wd).h)) ∧
    ((prepare_drawing_cache wd c).drawer_transform.map
        ((drawer_area c).x, (drawer_area c).y + (drawer_area c).h)
      = ((plot_area wd).x, (plot_area wd).y)) ∧
    ((prepare_drawing_cache wd c).drawer_transform.map
        ((drawer_area c).x + (drawer_area c).w,
         (drawer_area c).y + (drawer_area c).h)
      = ((plot_area wd).x + (plot_area wd).w, (plot_area wd).y)) ∧
    (∀ p : ℚ × ℚ,
      (prepare_drawing_cache wd c).ui_transform.map
        ((prepare_drawing_cache wd c).drawer_transform.map p) = p) := by
  have hDw : (drawer_area c).w ≠ 0 := ne_of_gt (drawer_area_w_pos c)
  have hDh : (drawer_area c).h ≠ 0 := ne_of_gt (drawer_area_h_pos c)
  have hui : (prepare_drawing_cache wd c).ui_transform
      = (prepare_drawing_cache wd c).drawer_transform.inverted.1 := rfl
  refine ⟨?_, ?_, ?_, ?_, ?_⟩ <;>
    [skip; skip; skip; skip;
     exact fun p => by
      rw [hui]
      exact Affine2.map_inverted_map _ (drawer_transform_det_ne wd c
        (ne_of_gt hPw) (ne_of_gt hPh)) p] <;>
  · simp only [prepare_drawing_cache, coordinate_transform, Affine2.mul,
      Affine2.fromTranslate, Affine2.fromScale, Affine2.rotX180,
      Affine2.map, Prod.mk.injEq]
    constructor <;> (field_simp; ring)

/-- C1, witness: a 100 x 100 widget with the default 20-pixel paddings has
a 60 x 60 plot area, so the hypotheses hold at the default config. -/
theorem C1_witness :
    (0 < (plot_area (Widget.mk 100 100 20 20 20 20)).w) ∧
    (0 < (plot_area (Widget.mk 100 100 20 20 20 20)).h) ∧
    (((prepare_drawing_cache (Widget.mk 100 100 20 20 20 20) cfg0
        ).drawer_transform.map ((drawer_area cfg0).x, (drawer_area cfg0).y)
      = ((plot_area (Widget.mk 100 100 20 20 20 20)).x,
         (plot_area (Widget.mk 100 100 20 20 20 20)).y
           + (plot_area (Widget.mk 100 100 20 20 20 20)).h)) ∧
    ((prepare_drawing_cache (Widget.mk 100 100 20 20 20 20) cfg0
        ).drawer_transform.map
        ((drawer_area cfg0).x + (drawer_area cfg0).w, (drawer_area cfg0).y)
      = ((plot_area (Widget.mk 100 100 20 20 20 20)).x
           + (plot_area (Widget.mk 100 100 20 20 20 20)).w,
         (plot_area (Widget.mk 100 100 20 20 20 20)).y
           + (plot_area (Widget.mk 100 100 20 20 20 20)).h)) ∧
    ((prepare_drawing_cache (Widget.mk 100 100 20 20 20 20) cfg0
        ).drawer_transform.map
        ((drawer_area cfg0).x, (drawer_area cfg0).y + (drawer_area cfg0).h)
      = ((plot_area (Widget.mk 100 100 20 20 20 20)).x,
         (plot_area (Widget.mk 100 100 20 20 20 20)).y)) ∧
    ((prepare_drawing_cache (Widget.mk 100 100 20 20 20 20) cfg0
        ).drawer_transform.map
        ((drawer_area cfg0).x + (drawer_area cfg0).w,
         (drawer_area cfg0).y + (drawer_area cfg0).h)
      = ((plot_area (Widget.mk 100 100 20 20 20 20)).x
           + (plot_area (Widget.mk 100 100 20 20 20 20)).w,
         (plot_area (Widget.mk 100 100 20 20 20 20)).y)) ∧
    (∀ p : ℚ × ℚ,
      (prepare_drawing_cache (Widget.mk 100 100 20 20 20 20) cfg0
          ).ui_transform.map
        ((prepare_drawing_cache (Widget.mk 100 100 20 20 20 20) cfg0
          ).drawer_transform.map p) = p)) :=
  ⟨by norm_num [plot_area, Rect.adjusted],
   by norm_num [plot_area, Rect.adjusted],
   C1_transform_corners_and_inverse (Widget.mk 100 100 20 20 20 20) cfg0
     (by norm_num [plot_area, Rect.adjusted])
     (by norm_num [plot_area, Rect.adjusted])⟩

/-! ## C6 -/

/-- A 40 x 40 widget with 20-pixel paddings: its plot area is empty. -/
def wdDegen : Widget := Widget.mk 40 40 20 20 20 20

/-- C6, counterexample: with a 40 x 40 widget and the default 20-pixel
paddings the plot area is 0 x 0, the composed transform is singular
despite the floor-at-1 guard on the drawer area, and the inversion takes
the identity fallback. -/
theorem C6_counterexample :
    (prepare_drawing_cache wdDegen cfg0).drawer_transform.det = 0 ∧
    (prepare_drawing_cache wdDegen cfg0).drawer_transform.inverted.2
      = false ∧
    (prepare_drawing_cache wdDegen cfg0).ui_transform = Affine2.idT := by
  norm_num [prepare_drawing_cache, coordinate_transform, drawer_area,
    plot_area, Rect.adjusted, Affine2.mul, Affine2.fromTranslate,
    Affine2.fromScale, Affine2.rotX180, Affine2.inverted, Affine2.det,
    Affine2.idT, cfg0, wdDegen]

/-- C6, amended: for every config the composed drawer transform is
nonsingular and the inversion succeeds provided the plot area has nonzero
width and height; the floor-at-1 guard rules out degeneracy coming from
the drawer area, but not from a degenerate plot area. -/
theorem C6_invertible_amended (wd : Widget) (c : DrawConfig)
    (hPw : (plot_area wd).w ≠ 0) (hPh : (plot_area wd).h ≠ 0) :
    (prepare_drawing_cache wd c).drawer_transform.det ≠ 0 ∧
    (prepare_drawing_cache wd c).drawer_transform.inverted.2 = true := by
  have hdet := drawer_transform_det_ne wd c hPw hPh
  exact ⟨hdet, by rw [Affine2.inverted, if_neg hdet]⟩

/-- C6, witness: the hypotheses of the amended theorem hold for the
100 x 100 widget with 20-pixel paddings and the reversed-range config. -/
theorem C6_witness :
    ((plot_area (Widget.mk 100 100 20 20 20 20)).w ≠ 0) ∧
    ((plot_area (Widget.mk 100 100 20 20 20 20)).h ≠ 0) ∧
    ((prepare_drawing_cache (Widget.mk 100 100 20 20 20 20) cfgRev
        ).drawer_transform.det ≠ 0 ∧
      (prepare_drawing_cache (Widget.mk 100 100 20 20 20 20) cfgRev
        ).drawer_transform.inverted.2 = true) :=
  ⟨by norm_num [plot_area, Rect.adjusted],
   by norm_num [plot_area, Rect.adjusted],
   C6_invertible_amended (Widget.mk 100 100 20 20 20 20) cfgRev
     (by norm_num [plot_area, Rect.adjusted])
     (by norm_num [plot_area, Rect.adjusted])⟩

/-! ## Helper lemmas about the cascade -/

/-- Number of entries of a value list that differ from v. -/
def countNot (v : ℚ) : List ℚ → Nat
  | [] => 0
  | x :: xs => (if x = v then 0 else 1) + countNot v xs

/-- At most every entry differs from v. -/
theorem countNot_le_length (v : ℚ) (l : List ℚ) : countNot v l ≤ l.length := by
  induction l with
  | nil => exact Nat.le_refl 0
  | cons x xs ih =>
    by_cases hx : x = v <;> simp [countNot, hx] <;> omega

/-- If no entry differs from v, every in-range read returns v. -/
theorem countNot_eq_zero_getD (v : ℚ) (l : List ℚ) (h : countNot v l = 0) :
    ∀ k, k < l.length → l.getD k 0 = v := by
  induction l with
  | nil =>
    intro k hk
    simp at hk
  | cons x xs ih =>
    simp only [countNot] at h
    intro k hk
    cases k with
    | zero =>
      simp only [List.getD_cons_zero]
      by_contra hx
      rw [if_neg hx] at h
      omega
    | succ k =>
      have hxs : countNot v xs = 0 := by omega
      simpa using ih hxs k (by simpa using hk)

/-- Reading back an in-range write. -/
theorem getD_set_self (l : List ℚ) (i : Nat) (v : ℚ) (h : i < l.length) :
    (l.set i v).getD i 0 = v := by
  induction l generalizing i with
  | nil => simp at h
  | cons x xs ih =>
    cases i with
    | zero => rfl
    | succ i => simpa using ih i (by simpa using h)

/-- Writing v never unwrites an entry that already reads v. -/
theorem getD_set_keep (l : List ℚ) (i k : Nat) (v : ℚ)
    (h : l.getD k 0 = v) : (l.set i v).getD k 0 = v := by
  induction l generalizing i k with
  | nil => simpa using h
  | cons x xs ih =>
    cases i with
    | zero =>
      cases k with
      | zero => rfl
      | succ k => simpa using h
    | succ i =>
      cases k with
      | zero => simpa using h
      | succ k => simpa using ih i k (by simpa using h)

/-- Writing v over an in-range entry that differs from v strictly lowers
the count of entries differing from v. -/
theorem countNot_set_lt (v : ℚ) (l : List ℚ) (i : Nat)
    (hi : i < l.length) (hne : l.getD i 0 ≠ v) :
    countNot v (l.set i v) < countNot v l := by
  induction l generalizing i with
  | nil => simp at hi
  | cons x xs ih =>
    cases i with
    | zero =>
      have hx : x ≠ v := by simpa using hne
      simp [List.set, countNot, hx]
    | succ i =>
      have hrec := ih i (by simpa using hi) (by simpa using hne)
      simp only [List.set, countNot]
      generalize (if x = v then 0 else 1) = b
      omega

/-- One step of the plain cascade induction: if every recursive
`_set_drawer_value` call at fuel m + 1 satisfies the specification below,
then so does a whole `_sync_all_linked` loop, started in a state where the
propagating axis already holds v. -/
theorem runLinks_plain (sys : HairSys) (v : ℚ) (N m : Nat)
    (ih : ∀ vals j, vals.length = N → j < N → countNot v vals ≤ m →
      ∃ r : List ℚ × Log, runSet sys (m + 1) vals j v = some r ∧
        r.1.length = N ∧
        (∀ k, vals.getD k 0 = v → r.1.getD k 0 = v) ∧
        r.1.getD j 0 = v ∧
        countNot v r.1 ≤ countNot v vals ∧
        (∀ e ∈ r.2, e.2 = v ∧ vals.getD e.1 0 ≠ v ∧ r.1.getD e.1 0 = v) ∧
        (r.2.map Prod.fst).Nodup) :
    ∀ (js : List Nat) (vals : List ℚ) (i : Nat),
      vals.length = N → (∀ j ∈ js, j < N) → countNot v vals ≤ m →
      vals.getD i 0 = v →
      ∃ r : List ℚ × Log,
        runLinks (runSet sys (m + 1)) vals i js = some r ∧
        r.1.length = N ∧
        (∀ k, vals.getD k 0 = v → r.1.getD k 0 = v) ∧
        countNot v r.1 ≤ countNot v vals ∧
        (∀ e ∈ r.2, e.2 = v ∧ vals.getD e.1 0 ≠ v ∧ r.1.getD e.1 0 = v) ∧
        (r.2.map Prod.fst).Nodup := by
  intro js
  induction js with
  | nil =>
    intro vals i hlen _ _ _
    exact ⟨(vals, []), rfl, hlen, fun k hk => hk, Nat.le_refl _,
      fun e he => absurd he (List.not_mem_nil e), List.nodup_nil⟩
  | cons j js ihjs =>
    intro vals i hlen hjs hcnt hvi
    obtain ⟨r1, hr1, hlen1, hkeep1, hj1, hcnt1, hlog1, hnd1⟩ :=
      ih vals j hlen (hjs j (List.mem_cons_self _ _)) hcnt
    obtain ⟨r2, hr2, hlen2, hkeep2, hcnt2, hlog2, hnd2⟩ :=
      ihjs r1.1 i hlen1 (fun j' hj' => hjs j' (List.mem_cons_of_mem _ hj'))
        (le_trans hcnt1 hcnt) (hkeep1 i hvi)
    refine ⟨(r2.1, r1.2 ++ r2.2), ?_, hlen2,
      fun k hk => hkeep2 k (hkeep1 k hk), le_trans hcnt2 hcnt1, ?_, ?_⟩
    · simp only [runLinks, hvi, hr1, hr2]
    · intro e he
      rcases List.mem_append.mp he with he | he
      · obtain ⟨h1, h2, h3⟩ := hlog1 e he
        exact ⟨h1, h2, hkeep2 e.1 h3⟩
      · obtain ⟨h1, h2, h3⟩ := hlog2 e he
        refine ⟨h1, ?_, h3⟩
        intro hv
        exact h2 (hkeep1 e.1 hv)
    · rw [List.map_append]
      refine List.Nodup.append hnd1 hnd2 ?_
      intro a ha1 ha2
      obtain ⟨e1, he1, he1a⟩ := List.mem_map.mp ha1
      obtain ⟨e2, he2, he2a⟩ := List.mem_map.mp ha2
      obtain ⟨_, _, h13⟩ := hlog1 e1 he1
      obtain ⟨_, h22, _⟩ := hlog2 e2 he2
      rw [he1a] at h13
      rw [he2a] at h22
      exact h22 h13

/-- The plain cascade specification: with no bar axes, a call of
`_set_drawer_value` with fuel exceeding the number of entries differing
from v succeeds; it only ever rewrites entries to v, leaves the target at
v, and its change log carries value v throughout, mentions only axes whose
stored value actually differed from v, and mentions each axis at most once. -/
theorem runSet_plain (sys : HairSys) (v : ℚ) (N : Nat)
    (hplain : ∀ k, sys.isBar.getD k false = false)
    (hwf : ∀ k j, j ∈ sys.links.getD k [] → j < N) :
    ∀ (m : Nat) (vals : List ℚ) (i : Nat),
      vals.length = N → i < N → countNot v vals ≤ m →
      ∃ r : List ℚ × Log, runSet sys (m + 1) vals i v = some r ∧
        r.1.length = N ∧
        (∀ k, vals.getD k 0 = v → r.1.getD k 0 = v) ∧
        r.1.getD i 0 = v ∧
        countNot v r.1 ≤ countNot v vals ∧
        (∀ e ∈ r.2, e.2 = v ∧ vals.getD e.1 0 ≠ v ∧ r.1.getD e.1 0 = v) ∧
        (r.2.map Prod.fst).Nodup := by
  intro m
  induction m with
  | zero =>
    intro vals i hlen hi hcnt
    have hvi : vals.getD i 0 = v :=
      countNot_eq_zero_getD v vals (Nat.le_zero.mp hcnt) i (hlen ▸ hi)
    refine ⟨(vals, []), ?_, hlen, fun k hk => hk, hvi, Nat.le_refl _,
      fun e he => absurd he (List.not_mem_nil e), List.nodup_nil⟩
    simp only [runSet, hplain i, Bool.false_eq_true, if_false, hvi,
      eq_self_iff_true, if_true]
  | succ m ihm =>
    intro vals i hlen hi hcnt
    by_cases hvi : vals.getD i 0 = v
    · refine ⟨(vals, []), ?_, hlen, fun k hk => hk, hvi, Nat.le_refl _,
        fun e he => absurd he (List.not_mem_nil e), List.nodup_nil⟩
      simp only [runSet, hplain i, Bool.false_eq_true, if_false, hvi,
        eq_self_iff_true, if_true]
    · have hlen₁ : (vals.set i v).length = N := by
        rw [List.length_set]
        exact hlen
      have hcnt₁lt : countNot v (vals.set i v) < countNot v vals :=
        countNot_set_lt v vals i (hlen ▸ hi) hvi
      have hcnt₁ : countNot v (vals.set i v) ≤ m := by omega
      have hvi₁ : (vals.set i v).getD i 0 = v :=
        getD_set_self vals i v (hlen ▸ hi)
      obtain ⟨r2, hr2, hlen2, hkeep2, hcnt2, hlog2, hnd2⟩ :=
        runLinks_plain sys v N m ihm (sys.links.getD i []) (vals.set i v) i
          hlen₁ (fun j hj => hwf i j hj) hcnt₁ hvi₁
      have hne : ¬ (v = vals.getD i 0) := fun h => hvi h.symm
      refine ⟨(r2.1, (i, v) :: r2.2), ?_, hlen2, ?_, hkeep2 i hvi₁, ?_,
        ?_, ?_⟩
      · rw [runSet_succ]
        simp only [hplain i, Bool.false_eq_true, if_false, if_neg hne, hr2]
      · intro k hk
        exact hkeep2 k (getD_set_keep vals i k v hk)
      · exact le_trans hcnt2 (Nat.le_of_lt hcnt₁lt)
      · intro e he
        rcases List.mem_cons.mp he with rfl | he
        · exact ⟨rfl, hvi, hkeep2 i hvi₁⟩
        · obtain ⟨h1, h2, h3⟩ := hlog2 e he
          refine ⟨h1, ?_, h3⟩
          intro hv
          exact h2 (getD_set_keep vals i e.1 v hv)
      · simp only [List.map_cons]
        refine List.nodup_cons.mpr ⟨?_, hnd2⟩
        intro hmem
        obtain ⟨e, he, hei⟩ := List.mem_map.mp hmem
        obtain ⟨_, h2, _⟩ := hlog2 e he
        rw [hei] at h2
        exact h2 hvi₁

/-! ## Crosshair fixtures -/

/-- Two plain horizontal crosshair axes A = 0 and B = 1, no links. -/
def sysAB : HairSys := HairSys.mk [true, true] [false, false] [[], []]

/-- sysAB after A.link_to(B): B's link list gains A. -/
def sysABLinked : HairSys := HairSys.mk [true, true] [false, false] [[], [0]]

/-- Two bar axes linked in a two-cycle. -/
def sysBarCycle : HairSys := HairSys.mk [true, true] [true, true] [[1], [0]]

/-- Two plain axes linked in a two-cycle. -/
def sysPlainCycle : HairSys :=
  HairSys.mk [true, true] [false, false] [[1], [0]]

/-- A single bar axis with no links. -/
def sysBar1 : HairSys := HairSys.mk [true] [true] [[]]

/-! ## C3 -/

/-- C3, counterexample: after A.link_to(B) (A = axis 0, B = axis 1),
setting A's value to 5 does not update B at all: `link_to` appends A to
B's `_links`, so values flow from B to A, not from A to B. The cascade
sets A to 5, emits one notification for A, and leaves B at 0. -/
theorem C3_counterexample :
    link_to sysAB 0 1 = some sysABLinked ∧
    runSet sysABLinked 3 [0, 0] 0 5 = some ([5, 0], [(0, 5)]) ∧
    ([(5 : ℚ), 0].getD 1 0 = 0 ∧ (0 : ℚ) ≠ 5) := by
  refine ⟨rfl, ?_, by norm_num⟩
  norm_num [runSet, runLinks, sysABLinked]

/-- C3, amended: `link_to` registers self as a receiver of the target's
changes, so after A.link_to(B) it is setting B's value to v that updates
A to v, exactly once, with no update to A when v already equals A's
current value, and a complete no-op when v equals B's current value. -/
theorem C3_link_direction_amended (a b v : ℚ) :
    runSet sysABLinked 3 [a, b] 1 v
      = some (if v = b then ([a, b], [])
              else if v = a then ([a, v], [(1, v)])
              else ([v, v], [(1, v), (0, v)])) := by
  by_cases hb : v = b
  · simp [runSet, runLinks, sysABLinked, hb]
  · by_cases ha : v = a
    · subst ha
      simp [runSet, runLinks, sysABLinked, hb]
    · simp [runSet, runLinks, sysABLinked, hb, ha]

/-! ## C7 -/

/-- C7, counterexample: with the bar-snapping variant in a link cycle, a
single delivery of -5/2 changes axis 0 twice (to -3/2 and then to 1/2)
and propagates four different values, refuting both the claim that every
propagated value in one cascade is the same and the claim that each axis
changes at most once per cascade. -/
theorem C7_counterexample :
    runSet sysBarCycle 10 [0, 0] 0 (-5 / 2)
      = some ([1 / 2, 1 / 2],
          [(0, -3 / 2), (1, -1 / 2), (0, 1 / 2), (1, 1 / 2)]) ∧
    ¬ (([((0 : Nat), (-3 : ℚ) / 2), (1, -1 / 2), (0, 1 / 2),
          (1, 1 / 2)].map Prod.fst).Nodup) ∧
    ((-3 : ℚ) / 2 ≠ 1 / 2) := by
  refine ⟨?_, by decide, by norm_num⟩
  norm_num [runSet, runLinks, barSnap, pyInt, sysBarCycle]

/-- C7, amended: for every finite arena of plain (non-snapping) crosshair
axes and every link graph over them, cycles included, a single call of
`_set_drawer_value` terminates — fuel one more than the number of axes
suffices; propagation only reaches linked axes whose stored value
actually changes, every logged change carries the same value, and each
axis changes value at most once per cascade. The bar-snapping variant
re-snaps at every hop, so there cascades can change an axis repeatedly. -/
theorem C7_cascade_amended (sys : HairSys) (vals : List ℚ) (i : Nat)
    (v : ℚ) (hplain : ∀ k, sys.isBar.getD k false = false)
    (hwf : ∀ k j, j ∈ sys.links.getD k [] → j < vals.length)
    (hi : i < vals.length) :
    ∃ r : List ℚ × Log, runSet sys (vals.length + 1) vals i v = some r ∧
      (∀ e ∈ r.2, e.2 = v ∧ vals.getD e.1 0 ≠ v) ∧
      (r.2.map Prod.fst).Nodup := by
  obtain ⟨r, h1, _, _, _, _, h6, h7⟩ :=
    runSet_plain sys v vals.length hplain hwf vals.length vals i rfl hi
      (countNot_le_length v vals)
  exact ⟨r, h1, fun e he => ⟨(h6 e he).1, (h6 e he).2.1⟩, h7⟩

/-- C7, witness: the amended theorem applied to two plain axes linked in
a cycle, both starting at 0, receiving the value 5 at axis 0. -/
theorem C7_witness :
    (∀ k, sysPlainCycle.isBar.getD k false = false) ∧
    (∀ k j, j ∈ sysPlainCycle.links.getD k [] → j < [(0 : ℚ), 0].length) ∧
    0 < [(0 : ℚ), 0].length ∧
    (∃ r : List ℚ × Log,
      runSet sysPlainCycle ([(0 : ℚ), 0].length + 1) [(0 : ℚ), 0] 0 5
          = some r ∧
        (∀ e ∈ r.2, e.2 = 5 ∧ [(0 : ℚ), 0].getD e.1 0 ≠ 5) ∧
        (r.2.map Prod.fst).Nodup) :=
  ⟨fun k => by rcases k with _ | _ | k <;> rfl,
   fun k j hj => by
     rcases k with _ | _ | k <;> simp [sysPlainCycle] at hj <;> subst hj <;>
       norm_num,
   by norm_num,
   C7_cascade_amended sysPlainCycle [0, 0] 0 5
     (fun k => by rcases k with _ | _ | k <;> rfl)
     (fun k j hj => by
       rcases k with _ | _ | k <;> simp [sysPlainCycle] at hj <;> subst hj <;>
         norm_num)
     (by norm_num)⟩

/-! ## C9 -/

/-- C9, counterexample: a bar-type X crosshair axis delivered v = -3/2
stores -1/2 (Python `int()` truncates toward zero), not the claimed
floor(v) + 0.5 = -3/2. -/
theorem C9_counterexample :
    runSet sysBar1 2 [0] 0 (-3 / 2) = some ([-1 / 2], [(0, -1 / 2)]) ∧
    (⌊(-3 / 2 : ℚ)⌋ : ℚ) + 1 / 2 = -3 / 2 ∧
    ((-1 : ℚ) / 2 ≠ -3 / 2) := by
  refine ⟨?_, by norm_num, by norm_num⟩
  norm_num [runSet, runLinks, barSnap, pyInt, sysBar1]

/-- C9, amended: the value stored and propagated by a bar-type X
crosshair axis is trunc(v) + 0.5 with truncation toward zero — that is
floor(v) + 0.5 for nonnegative v but ceil(v) + 0.5 for negative v — and
this is what a delivery of v to a fresh single bar axis stores. -/
theorem C9_bar_snap_amended (v w : ℚ) :
    runSet sysBar1 2 [w] 0 v
      = some ([barSnap v],
          if barSnap v = w then [] else [(0, barSnap v)]) ∧
    barSnap v = (if 0 ≤ v then (⌊v⌋ : ℚ) else (⌈v⌉ : ℚ)) + 1 / 2 := by
  constructor
  · by_cases hw : barSnap v = w
    · simp [runSet, runLinks, sysBar1, hw]
    · simp [runSet, runLinks, sysBar1, hw]
  · rw [barSnap]
    by_cases h0 : 0 ≤ v
    · rw [pyInt_of_nonneg v h0, if_pos h0]
    · rw [pyInt_of_neg v (not_le.mp h0), if_neg h0]

/-! ## C10 -/

/-- C10, counterexample: in a bar-axis link cycle, two successive
deliveries of the same value -5/2 both produce a full cascade: the second
delivery is not a no-op — it changes stored values transiently and emits
four notifications — because the cycle left axis 0 at 1/2 rather than at
the snapped bin center -3/2 of the delivered value. -/
theorem C10_counterexample :
    runSet sysBarCycle 10 [0, 0] 0 (-5 / 2)
      = some ([1 / 2, 1 / 2],
          [(0, -3 / 2), (1, -1 / 2), (0, 1 / 2), (1, 1 / 2)]) ∧
    runSet sysBarCycle 10 [1 / 2, 1 / 2] 0 (-5 / 2)
      = some ([1 / 2, 1 / 2],
          [(0, -3 / 2), (1, -1 / 2), (0, 1 / 2), (1, 1 / 2)]) ∧
    ([((0 : Nat), (-3 : ℚ) / 2), (1, -1 / 2), (0, 1 / 2), (1, 1 / 2)]
        : Log) ≠ [] := by
  refine ⟨?_, ?_, by simp⟩ <;>
    norm_num [runSet, runLinks, barSnap, pyInt, sysBarCycle]

/-- C10, amended: the snap is applied before the value-change guard, so
whenever a bar axis's stored value equals the snapped bin center of a
previous update, a second update snapping to the same center is a
complete no-op: the state is unchanged, nothing is logged (no updated
notification) and nothing is propagated. -/
theorem C10_snap_idempotent_amended (sys : HairSys) (vals : List ℚ)
    (i fuel : Nat) (v1 v2 : ℚ)
    (hbar : sys.isBar.getD i false = true)
    (hstored : vals.getD i 0 = barSnap v1)
    (hsnap : barSnap v2 = barSnap v1) :
    runSet sys (fuel + 1) vals i v2 = some (vals, []) := by
  rw [runSet_succ]
  simp only [hbar, hsnap, hstored]
  simp

/-- C10, witness: a bar axis holding 5/2 = snap(5/2); a second delivery
of 23/10, which snaps to the same bin center 5/2, is a complete no-op. -/
theorem C10_witness :
    sysBar1.isBar.getD 0 false = true ∧
    [(5 : ℚ) / 2].getD 0 0 = barSnap (5 / 2) ∧
    barSnap (23 / 10) = barSnap (5 / 2) ∧
    runSet sysBar1 1 [(5 : ℚ) / 2] 0 (23 / 10) = some ([(5 : ℚ) / 2], []) :=
  ⟨rfl, by norm_num [barSnap, pyInt], by norm_num [barSnap, pyInt],
   C10_snap_idempotent_amended sysBar1 [(5 : ℚ) / 2] 0 0 (5 / 2) (23 / 10)
     rfl (by norm_num [barSnap, pyInt]) (by norm_num [barSnap, pyInt])⟩

end PyChart
